import Mathlib

/-!
Verification of the chess rules engine in `ChessEngine.py` (classes `GameState`
and `Move`).  The Python code is shallowly embedded: each two-character piece
string becomes a pair of characters (index 0 = color, index 1 = kind, with
`('-','-')` for the empty-square sentinel `"--"`), the board becomes a list of
lists of such cells, and every method of `GameState` becomes a pure function
that takes and returns the state explicitly.  Python list indices are `Int`
(negative indices wrap, as in Python).
-/

/-- A board cell: component 1 is the color character (`'w'`, `'b'` or `'-'`),
component 2 the kind character (`'p'`, `'R'`, `'N'`, `'B'`, `'Q'`, `'K'` or
`'-'`).  This mirrors the two-character strings of the source, accessed there
only as `s[0]` and `s[1]`. -/
abbrev Cell := Char × Char

abbrev Board := List (List Cell)

/-- Python-style list read `l[i]`: nonnegative indices from the front,
negative indices wrap from the back.  An index out of range raises in Python;
here it yields the supplied default (no claim exercises that case). -/
def pyNth (l : List α) (i : Int) (dflt : α) : α :=
  if 0 ≤ i then l.getD i.toNat dflt
  else l.reverse.getD ((-i).toNat - 1) dflt

/-- Python-style list write `l[i] = v`, with the same index convention as
`pyNth`.  Out-of-range writes raise in Python; here they leave the list
unchanged (no claim exercises that case). -/
def pySet (l : List α) (i : Int) (v : α) : List α :=
  if 0 ≤ i then l.set i.toNat v
  else if (-i).toNat ≤ l.length then l.set (l.length - (-i).toNat) v
  else l

/-- Read `board[r][c]`. -/
def bget (b : Board) (r c : Int) : Cell :=
  pyNth (pyNth b r []) c ('-', '-')

/-- Write `board[r][c] = v`. -/
def bset (b : Board) (r c : Int) (v : Cell) : Board :=
  pySet b r (pySet (pyNth b r []) c v)

/-- The `Move` value object of `ChessEngine.py` (class `Move`). -/
structure Move where
  startRow : Int
  startCol : Int
  endRow : Int
  endCol : Int
  pieceMoved : Cell
  pieceCaptured : Cell
  isPawnPromotion : Bool
  isEnpassantMove : Bool
deriving DecidableEq

/-- `Move.__init__`: captures `pieceMoved` and `pieceCaptured` from the board
snapshot; for an en passant move `pieceCaptured` is synthesized as the
opposing pawn instead of being read from the (empty) destination square.
The Python keyword defaults (`isEnpassantMove=False`, `isPawnPromotion=False`)
are passed explicitly at every call site below. -/
def mkMove (startSq endSq : Int × Int) (board : Board)
    (isEnpassantMove isPawnPromotion : Bool) : Move :=
  let pieceMoved := bget board startSq.1 startSq.2
  let cap0 := bget board endSq.1 endSq.2
  let pieceCaptured :=
    if isEnpassantMove then (if pieceMoved = ('w', 'p') then ('b', 'p') else ('w', 'p'))
    else cap0
  { startRow := startSq.1, startCol := startSq.2,
    endRow := endSq.1, endCol := endSq.2,
    pieceMoved := pieceMoved, pieceCaptured := pieceCaptured,
    isPawnPromotion := isPawnPromotion, isEnpassantMove := isEnpassantMove }

/-- The derived `self.moveID = 1000*startRow + 100*startCol + 10*endRow + endCol`.
The Python constructor stores this value in a field; since the four
coordinates are immutable after construction, the stored field is always
exactly this function of the move. -/
def moveID (m : Move) : Int :=
  1000 * m.startRow + 100 * m.startCol + 10 * m.endRow + m.endCol

/-- `Move.__eq__`: two moves compare equal exactly when their `moveID`s agree.
(The `isinstance` guard of the source always holds here, both arguments being
`Move`s.) -/
def moveEq (m other : Move) : Bool :=
  moveID m == moveID other

/-- A pin or check record `(row, col, dRow, dCol)` as produced by
`checkForPinsAndChecks`. -/
abbrev PinEntry := Int × Int × Int × Int

/-- The `GameState` aggregate of `ChessEngine.py`.  `enpassantPossible` is
`none` for the Python empty tuple `()`; the Python constructor leaves the
attribute unset until the first `makeMove`, and nothing reads it before then,
so `none` is also used for the initial state. -/
structure GameState where
  board : Board
  whiteToMove : Bool
  moveLog : List Move
  inCheck : Bool
  pins : List PinEntry
  checks : List PinEntry
  blackKingLocation : Int × Int
  whiteKingLocation : Int × Int
  enpassantPossible : Option (Int × Int)
deriving DecidableEq

/-- `GameState.__init__`: the standard initial position, white to move. -/
def initialGameState : GameState :=
  { board :=
      [[('b','R'), ('b','N'), ('b','B'), ('b','Q'), ('b','K'), ('b','B'), ('b','N'), ('b','R')],
       [('b','p'), ('b','p'), ('b','p'), ('b','p'), ('b','p'), ('b','p'), ('b','p'), ('b','p')],
       [('-','-'), ('-','-'), ('-','-'), ('-','-'), ('-','-'), ('-','-'), ('-','-'), ('-','-')],
       [('-','-'), ('-','-'), ('-','-'), ('-','-'), ('-','-'), ('-','-'), ('-','-'), ('-','-')],
       [('-','-'), ('-','-'), ('-','-'), ('-','-'), ('-','-'), ('-','-'), ('-','-'), ('-','-')],
       [('-','-'), ('-','-'), ('-','-'), ('-','-'), ('-','-'), ('-','-'), ('-','-'), ('-','-')],
       [('w','p'), ('w','p'), ('w','p'), ('w','p'), ('w','p'), ('w','p'), ('w','p'), ('w','p')],
       [('w','R'), ('w','N'), ('w','B'), ('w','Q'), ('w','K'), ('w','B'), ('w','N'), ('w','R')]],
    whiteToMove := true,
    moveLog := [],
    inCheck := false,
    pins := [],
    checks := [],
    blackKingLocation := (0, 4),
    whiteKingLocation := (7, 4),
    enpassantPossible := none }

/-- `GameState.makeMove`.  The promotion branch of the source executes
`self.board[...] = self.pieceMoved[0] + promotionPiece` (line 43): `self` is
the `GameState`, which has no attribute `pieceMoved` (the move does), so the
call raises `AttributeError` for every promotion move; that failure is
embedded as `none`.  The console prompt `input("Promote to ...")` that runs
just before the failing line is modelled by the `promotionChoice` argument
(it is read but never successfully used). -/
def makeMove (s : GameState) (move : Move) (promotionChoice : Char) : Option GameState :=
  let b1 := bset s.board move.startRow move.startCol ('-', '-')
  let b2 := bset b1 move.endRow move.endCol move.pieceMoved
  let s1 := { s with board := b2, moveLog := s.moveLog ++ [move],
                     whiteToMove := ¬ s.whiteToMove }
  let s2 :=
    if move.pieceMoved = ('b', 'K') then
      { s1 with blackKingLocation := (move.endRow, move.endCol) }
    else if move.pieceMoved = ('w', 'K') then
      { s1 with whiteKingLocation := (move.endRow, move.endCol) }
    else s1
  if move.isPawnPromotion then
    let _ := promotionChoice
    none
  else
    let s3 :=
      if move.isEnpassantMove then
        { s2 with board := bset s2.board move.startRow move.endCol ('-', '-') }
      else s2
    if move.pieceMoved.2 = 'p' ∧ (move.startRow - move.endRow).natAbs = 2 then
      let target := some (Int.fdiv (move.startRow + move.endRow) 2, move.startCol)
    some { s3 with enpassantPossible := target }
    else
      some { s3 with enpassantPossible := none }

/-- `GameState.undoMove`.  A guard makes it a no-op on an empty log.  Note
that the source restores the king-location field to `(move.endRow,
move.endCol)` — the destination of the move being undone — and that it only
touches `enpassantPossible` for en passant moves and two-square pawn
advances; both facts are preserved here exactly as written. -/
def undoMove (s : GameState) : GameState :=
  match s.moveLog.getLast? with
  | none => s
  | some move =>
    let b1 := bset s.board move.startRow move.startCol move.pieceMoved
    let b2 := bset b1 move.endRow move.endCol move.pieceCaptured
    let s1 := { s with board := b2, moveLog := s.moveLog.dropLast,
                       whiteToMove := ¬ s.whiteToMove }
    let s2 :=
      if move.pieceMoved = ('b', 'K') then
        { s1 with blackKingLocation := (move.endRow, move.endCol) }
      else if move.pieceMoved = ('w', 'K') then
        { s1 with whiteKingLocation := (move.endRow, move.endCol) }
      else s1
    let s3 :=
      if move.isEnpassantMove then
        let b3 := bset s2.board move.endRow move.endCol ('-', '-')
        let b4 := bset b3 move.startRow move.endCol move.pieceCaptured
        { s2 with board := b4, enpassantPossible := some (move.endRow, move.endCol) }
      else s2
    if move.pieceMoved.2 = 'p' ∧ (move.startRow - move.endRow).natAbs = 2 then
      { s3 with enpassantPossible := none }
    else s3

/-- The eight sweep directions of `checkForPinsAndChecks`, each paired with
its loop index `i` (indices 0–3 are orthogonal, 4–7 diagonal; the pawn cases
use indices 4–7 directly). -/
def cpcDirections : List ((Int × Int) × Nat) :=
  [((0, -1), 0), ((-1, 0), 1), ((0, 1), 2), ((1, 0), 3),
   ((-1, -1), 4), ((-1, 1), 5), ((1, -1), 6), ((1, 1), 7)]

/-- The eight knight offsets, shared by `getKnightMoves` and the knight sweep
of `checkForPinsAndChecks`. -/
def knightOffsets : List (Int × Int) :=
  [(-2, -1), (-2, 1), (-1, -2), (-1, 2), (1, -2), (1, 2), (2, -1), (2, 1)]

/-- The step indices `range(1, 8)` of every ray walk, as Python integers. -/
def raySteps : List Int := [1, 2, 3, 4, 5, 6, 7]

/-- The classification at lines 322–326 of the source: can an enemy piece of
kind `t`, met at step `j` on ray number `i`, deliver check along that ray? -/
def couldCheckAlongRay (i : Nat) (j : Int) (t : Char) (enemyColor : Char) : Prop :=
  (i ≤ 3 ∧ t = 'R') ∨
  (4 ≤ i ∧ i ≤ 7 ∧ t = 'B') ∨
  (j = 1 ∧ t = 'p' ∧
    ((enemyColor = 'w' ∧ (i = 6 ∨ i = 7)) ∨ (enemyColor = 'b' ∧ (i = 4 ∨ i = 5)))) ∨
  t = 'Q' ∨
  (j = 1 ∧ t = 'K')

instance (i : Nat) (j : Int) (t : Char) (c : Char) :
    Decidable (couldCheckAlongRay i j t c) := by
  unfold couldCheckAlongRay; infer_instance

/-- One outward ray of `checkForPinsAndChecks`: walk steps `js`, tracking the
candidate pin.  Result: `none` when the ray produces nothing, `some (true,
e)` for a check record `e`, `some (false, e)` for a confirmed pin record `e`.
An allied king met on the way falls through both branches of the source and
the walk continues (the "phantom king" of the hypothetical king moves). -/
def sweepRay (b : Board) (allyColor enemyColor : Char) (startRow startCol : Int)
    (d : Int × Int) (i : Nat) (possiblePin : Option PinEntry) :
    List Int → Option (Bool × PinEntry)
  | [] => none
  | j :: rest =>
    let endRow := startRow + d.1 * j
    let endCol := startCol + d.2 * j
    if 0 ≤ endRow ∧ endRow < 8 ∧ 0 ≤ endCol ∧ endCol < 8 then
      let endPiece := bget b endRow endCol
      if endPiece.1 = allyColor ∧ endPiece.2 ≠ 'K' then
        match possiblePin with
        | none => sweepRay b allyColor enemyColor startRow startCol d i
                    (some (endRow, endCol, d.1, d.2)) rest
        | some _ => none
      else if endPiece.1 = enemyColor then
        if couldCheckAlongRay i j endPiece.2 enemyColor then
          match possiblePin with
          | none => some (true, (endRow, endCol, d.1, d.2))
          | some pp => some (false, pp)
        else none
      else
        sweepRay b allyColor enemyColor startRow startCol d i possiblePin rest
    else none

/-- `GameState.checkForPinsAndChecks`: the 8-ray sweep from the friendly king
followed by the knight-offset sweep, returning `(inCheck, pins, checks)`. -/
def checkForPinsAndChecks (s : GameState) : Bool × List PinEntry × List PinEntry :=
  let enemyColor := if s.whiteToMove then 'b' else 'w'
  let allyColor := if s.whiteToMove then 'w' else 'b'
  let startRow := if s.whiteToMove then s.whiteKingLocation.1 else s.blackKingLocation.1
  let startCol := if s.whiteToMove then s.whiteKingLocation.2 else s.blackKingLocation.2
  let afterRays :=
    cpcDirections.foldl
      (fun (acc : Bool × List PinEntry × List PinEntry) di =>
        match sweepRay s.board allyColor enemyColor startRow startCol di.1 di.2 none raySteps with
        | some (true, chk) => (true, acc.2.1, acc.2.2 ++ [chk])
        | some (false, pin) => (acc.1, acc.2.1 ++ [pin], acc.2.2)
        | none => acc)
      (false, [], [])
  knightOffsets.foldl
    (fun (acc : Bool × List PinEntry × List PinEntry) off =>
      let endRow := startRow + off.1
      let endCol := startCol + off.2
      if 0 ≤ endRow ∧ endRow < 8 ∧ 0 ≤ endCol ∧ endCol < 8 then
        let endPiece := bget s.board endRow endCol
        if endPiece.1 = enemyColor ∧ endPiece.2 = 'N' then
          (true, acc.2.1, acc.2.2 ++ [(endRow, endCol, off.1, off.2)])
        else acc
      else acc)
    afterRays

/-- The backward pin scan shared by the pawn, knight and bishop generators
(and by the rook generator for non-queens): find the matching entry scanned
from the end of `self.pins`, remove it, and stop.  Returns the entry found
(if any) and the remaining list. -/
def extractPinLast : List PinEntry → Int → Int → Option PinEntry × List PinEntry
  | [], _, _ => (none, [])
  | p :: rest, r, c =>
    match extractPinLast rest r c with
    | (some q, rest') => (some q, p :: rest')
    | (none, _) =>
      if p.1 = r ∧ p.2.1 = c then (some p, rest)
      else (none, p :: rest)

/-- The pin scan of `getRookMoves` when the piece is a queen: the backward
loop neither removes the entry nor breaks, so later (lower-index) matches
overwrite `pinDirection`; the surviving value is the first match in list
order, and `self.pins` is left unchanged. -/
def findPinFirst : List PinEntry → Int → Int → Option PinEntry
  | [], _, _ => none
  | p :: rest, r, c =>
    if p.1 = r ∧ p.2.1 = c then some p else findPinFirst rest r c

/-- Direction of a found pin entry; the Python variable is initialized to the
empty tuple `()`, which compares unequal to every direction pair — `(0, 0)`
is never a ray direction, so it plays the same role here. -/
def pinDirOf : Option PinEntry → Int × Int
  | some p => (p.2.2.1, p.2.2.2)
  | none => (0, 0)

/-- `GameState.getPawnMoves`.  The local `isPawnPromotion` flag is set (from
`False`) exactly when `row + moveAmount == backRow`, and that same condition
guards every later assignment to it, so at each `append` site its value is
`row + moveAmount = backRow`.  No en passant capture is ever generated: the
method never consults `enpassantPossible`.  The piece-specific generators
take and return the state because they remove the claimed entry from
`self.pins`. -/
def getPawnMoves (s : GameState) (row col : Int) (moves : List Move) :
    GameState × List Move :=
  let er := extractPinLast s.pins row col
  let piecePinned := er.1.isSome
  let pinDirection := pinDirOf er.1
  let moveAmount : Int := if s.whiteToMove then -1 else 1
  let startRow : Int := if s.whiteToMove then 6 else 1
  let backRow : Int := if s.whiteToMove then 0 else 7
  let enemyColor : Char := if s.whiteToMove then 'b' else 'w'
  let ms1 :=
    if bget s.board (row + moveAmount) col = ('-', '-') then
      if ¬ piecePinned ∨ pinDirection = (-1, 0) then
        let push := [mkMove (row, col) (row + moveAmount, col) s.board false
                       (row + moveAmount = backRow)]
        let dbl :=
          if row = startRow ∧ bget s.board (row + 2 * moveAmount) col = ('-', '-') then
            [mkMove (row, col) (row + 2 * moveAmount, col) s.board false false]
          else []
        moves ++ push ++ dbl
      else moves
    else moves
  let ms2 :=
    if col - 1 ≥ 0 ∧ (bget s.board (row + moveAmount) (col - 1)).1 = enemyColor then
      if ¬ piecePinned ∨ pinDirection = (-1, -1) then
        ms1 ++ [mkMove (row, col) (row + moveAmount, col - 1) s.board false
                  (row + moveAmount = backRow)]
      else ms1
    else ms1
  let ms3 :=
    if col + 1 < 8 ∧ (bget s.board (row + moveAmount) (col + 1)).1 = enemyColor then
      if ¬ piecePinned ∨ pinDirection = (-1, 1) then
        ms2 ++ [mkMove (row, col) (row + moveAmount, col + 1) s.board false
                  (row + moveAmount = backRow)]
      else ms2
    else ms2
  ({ s with pins := er.2 }, ms3)

/-- Ray directions of `getRookMoves`. -/
def rookDirections : List (Int × Int) := [(-1, 0), (1, 0), (0, -1), (0, 1)]

/-- Ray directions of `getBishopMoves`. -/
def bishopDirections : List (Int × Int) := [(-1, -1), (-1, 1), (1, -1), (1, 1)]

/-- One ray of `getRookMoves`.  The bounds test of the source is
`0 < endRow < 8 and 0 < endCol < 8` (line 193) — strict also on the left —
and the loop merely skips such steps (the outer `if` has no `else`), while a
pinned-off-axis step breaks. -/
def rookWalk (b : Board) (enemyColor : Char) (row col : Int) (d : Int × Int)
    (piecePinned : Bool) (pinDirection : Int × Int) : List Int → List Move
  | [] => []
  | i :: rest =>
    let endRow := row + d.1 * i
    let endCol := col + d.2 * i
    if 0 < endRow ∧ endRow < 8 ∧ 0 < endCol ∧ endCol < 8 then
      if ¬ piecePinned ∨ pinDirection = d ∨ pinDirection = (-d.1, -d.2) then
        let endPiece := bget b endRow endCol
        if endPiece = ('-', '-') then
          mkMove (row, col) (endRow, endCol) b false false ::
            rookWalk b enemyColor row col d piecePinned pinDirection rest
        else if endPiece.1 = enemyColor then
          [mkMove (row, col) (endRow, endCol) b false false]
        else []
      else []
    else rookWalk b enemyColor row col d piecePinned pinDirection rest

/-- `GameState.getRookMoves`.  For a queen the pin scan neither removes the
entry from `self.pins` nor stops early (the removal is deferred to the
bishop-ray half of the queen's generation). -/
def getRookMoves (s : GameState) (row col : Int) (moves : List Move) :
    GameState × List Move :=
  let enemyColor : Char := if s.whiteToMove then 'b' else 'w'
  let isQueen := (bget s.board row col).2 = 'Q'
  let found := if isQueen then findPinFirst s.pins row col
               else (extractPinLast s.pins row col).1
  let pins' := if isQueen then s.pins else (extractPinLast s.pins row col).2
  let piecePinned := found.isSome
  let pinDirection := pinDirOf found
  let ms := rookDirections.foldl
    (fun acc d => acc ++ rookWalk s.board enemyColor row col d piecePinned pinDirection raySteps)
    moves
  ({ s with pins := pins' }, ms)

/-- One ray of `getBishopMoves`; identical to `rookWalk` except that the
bounds test is the inclusive `0 <= endRow < 8 and 0 <= endCol < 8`. -/
def bishopWalk (b : Board) (enemyColor : Char) (row col : Int) (d : Int × Int)
    (piecePinned : Bool) (pinDirection : Int × Int) : List Int → List Move
  | [] => []
  | i :: rest =>
    let endRow := row + d.1 * i
    let endCol := col + d.2 * i
    if 0 ≤ endRow ∧ endRow < 8 ∧ 0 ≤ endCol ∧ endCol < 8 then
      if ¬ piecePinned ∨ pinDirection = d ∨ pinDirection = (-d.1, -d.2) then
        let endPiece := bget b endRow endCol
        if endPiece = ('-', '-') then
          mkMove (row, col) (endRow, endCol) b false false ::
            bishopWalk b enemyColor row col d piecePinned pinDirection rest
        else if endPiece.1 = enemyColor then
          [mkMove (row, col) (endRow, endCol) b false false]
        else []
      else []
    else bishopWalk b enemyColor row col d piecePinned pinDirection rest

/-- `GameState.getBishopMoves` (removes the pin entry unconditionally, even
for a queen). -/
def getBishopMoves (s : GameState) (row col : Int) (moves : List Move) :
    GameState × List Move :=
  let enemyColor : Char := if s.whiteToMove then 'b' else 'w'
  let er := extractPinLast s.pins row col
  let piecePinned := er.1.isSome
  let pinDirection := pinDirOf er.1
  let ms := bishopDirections.foldl
    (fun acc d => acc ++ bishopWalk s.board enemyColor row col d piecePinned pinDirection raySteps)
    moves
  ({ s with pins := er.2 }, ms)

/-- `GameState.getQueenMoves`: rook rays, then bishop rays, with `self.pins`
threaded through. -/
def getQueenMoves (s : GameState) (row col : Int) (moves : List Move) :
    GameState × List Move :=
  let p := getRookMoves s row col moves
  getBishopMoves p.1 row col p.2

/-- `GameState.getKnightMoves`: the eight jumps, suppressed entirely when the
piece is pinned. -/
def getKnightMoves (s : GameState) (row col : Int) (moves : List Move) :
    GameState × List Move :=
  let allyColor : Char := if s.whiteToMove then 'w' else 'b'
  let er := extractPinLast s.pins row col
  let piecePinned := er.1.isSome
  let ms := moves ++ knightOffsets.filterMap (fun off =>
    let endRow := row + off.1
    let endCol := col + off.2
    if 0 ≤ endRow ∧ endRow < 8 ∧ 0 ≤ endCol ∧ endCol < 8 then
      if ¬ piecePinned then
        if (bget s.board endRow endCol).1 ≠ allyColor then
          some (mkMove (row, col) (endRow, endCol) s.board false false)
        else none
      else none
    else none)
  ({ s with pins := er.2 }, ms)

/-- The eight king offsets, in the order of the `rowMoves`/`colMoves` tuples
of the source. -/
def kingOffsets : List (Int × Int) :=
  [(-1, -1), (-1, 0), (-1, 1), (0, -1), (0, 1), (1, -1), (1, 0), (1, 1)]

/-- One iteration of the `getKingMoves` loop (lines 211–229 of the source):
for an offset whose destination is on the board and not occupied by an ally,
write the hypothetical destination into the allied king-location field,
rerun `checkForPinsAndChecks`, append the move when that reports no check,
and then write the ARGUMENTS `(row, col)` back into the field (lines
226–229).  The write-back is unconditional within the qualifying branch, so
whenever the stored king location differed from the passed square the call
leaves the field permanently rewritten to `(row, col)`. -/
def kingMoveStep (allyColor : Char) (row col : Int)
    (acc : GameState × List Move) (off : Int × Int) : GameState × List Move :=
  let st := acc.1
  let endRow := row + off.1
  let endCol := col + off.2
  if 0 ≤ endRow ∧ endRow < 8 ∧ 0 ≤ endCol ∧ endCol < 8 then
    if (bget st.board endRow endCol).1 ≠ allyColor then
      let hyp := if allyColor = 'w' then { st with whiteKingLocation := (endRow, endCol) }
                 else { st with blackKingLocation := (endRow, endCol) }
      let ms := if (checkForPinsAndChecks hyp).1 = false then
                  acc.2 ++ [mkMove (row, col) (endRow, endCol) st.board false false]
                else acc.2
      let restored := if allyColor = 'w' then { hyp with whiteKingLocation := (row, col) }
                      else { hyp with blackKingLocation := (row, col) }
      (restored, ms)
    else acc
  else acc

/-- `GameState.getKingMoves`: the eight-offset loop, threading the state
(whose allied king-location field the loop writes) and the move list.  It
does not consult `self.pins`. -/
def getKingMoves (s : GameState) (row col : Int) (moves : List Move) :
    GameState × List Move :=
  let allyColor : Char := if s.whiteToMove then 'w' else 'b'
  kingOffsets.foldl (kingMoveStep allyColor row col) (s, moves)

/-- The row-major square scan of `getAllPossibleMoves`:
`for row in range(len(board)): for col in range(len(board[row]))`. -/
def squareList (b : Board) : List (Int × Int) :=
  (List.range b.length).foldr
    (fun r acc =>
      ((List.range (pyNth b (Int.ofNat r) []).length).map
        (fun c => ((Int.ofNat r, Int.ofNat c) : Int × Int))) ++ acc)
    []

/-- The loop body of `getAllPossibleMoves`: skip squares not held by the side
to move, otherwise dispatch on the kind character exactly as the
`moveFunctions` dictionary does.  A kind outside the six keys would raise
`KeyError` in Python; that branch is unreachable for well-formed boards and
is embedded as a skip. -/
def possibleMovesStep (acc : GameState × List Move) (rc : Int × Int) :
    GameState × List Move :=
  let st := acc.1
  let cell := bget st.board rc.1 rc.2
  if (cell.1 = 'w' ∧ st.whiteToMove) ∨ (cell.1 = 'b' ∧ ¬ st.whiteToMove) then
    match cell.2 with
    | 'p' => getPawnMoves st rc.1 rc.2 acc.2
    | 'R' => getRookMoves st rc.1 rc.2 acc.2
    | 'K' => getKingMoves st rc.1 rc.2 acc.2
    | 'Q' => getQueenMoves st rc.1 rc.2 acc.2
    | 'N' => getKnightMoves st rc.1 rc.2 acc.2
    | 'B' => getBishopMoves st rc.1 rc.2 acc.2
    | _ => acc
  else acc

/-- `GameState.getAllPossibleMoves`. -/
def getAllPossibleMoves (s : GameState) : GameState × List Move :=
  (squareList s.board).foldl possibleMovesStep (s, [])

/-- The `validSquares` loop of the single-check branch of `getValidMoves`:
append the squares stepping from the king along the check direction, and stop
right after appending the checking piece's own square. -/
def buildValidSquares (kingRow kingCol : Int) (chk : PinEntry) :
    List Int → List (Int × Int)
  | [] => []
  | i :: rest =>
    let v : Int × Int := (kingRow + chk.2.2.1 * i, kingCol + chk.2.2.2 * i)
    if v.1 = chk.1 ∧ v.2 = chk.2.1 then [v]
    else v :: buildValidSquares kingRow kingCol chk rest

/-- Python `list.remove(m)`: drop the first element comparing equal to `m`
under `Move.__eq__`. -/
def removeFirstEq (m : Move) : List Move → List Move
  | [] => []
  | x :: rest => if moveEq x m then rest else x :: removeFirstEq m rest

/-- The backward removal loop of the single-check branch
(`for i in range(len(moves)-1, -1, -1)`): examine `moves[i]` of the current
list and remove non-king moves that neither block nor capture. -/
def checkRemoveLoop (validSquares : List (Int × Int)) :
    Nat → List Move → List Move
  | 0, ms => ms
  | i + 1, ms =>
    let ms' :=
      match ms.get? i with
      | some m =>
        if m.pieceMoved.2 ≠ 'K' ∧ ¬ ((m.endRow, m.endCol) ∈ validSquares) then
          removeFirstEq m ms
        else ms
      | none => ms
    checkRemoveLoop validSquares i ms'

/-- `GameState.getValidMoves`, returning the move list together with the
state as left by the call (the transient `inCheck`/`pins`/`checks` fields
are overwritten at entry and the pin entries are consumed by the
generators). -/
def getValidMoves (s : GameState) : List Move × GameState :=
  let r := checkForPinsAndChecks s
  let s0 := { s with inCheck := r.1, pins := r.2.1, checks := r.2.2 }
  let kingRow := if s0.whiteToMove then s0.whiteKingLocation.1 else s0.blackKingLocation.1
  let kingCol := if s0.whiteToMove then s0.whiteKingLocation.2 else s0.blackKingLocation.2
  if s0.inCheck then
    if s0.checks.length = 1 then
      let p := getAllPossibleMoves s0
      let check := pyNth s0.checks 0 (0, 0, 0, 0)
      let pieceChecking := bget s0.board check.1 check.2.1
      let validSquares :=
        if pieceChecking.2 = 'N' then [(check.1, check.2.1)]
        else buildValidSquares kingRow kingCol check raySteps
      (checkRemoveLoop validSquares p.2.length p.2, p.1)
    else
      let k := getKingMoves s0 kingRow kingCol []
      (k.2, k.1)
  else
    let p := getAllPossibleMoves s0
    (p.2, p.1)

/-! Helper predicates and concrete positions used by the claim theorems. -/

/-- The frame of `getValidMoves`: the fields the query must leave untouched
(everything except the transient `inCheck`/`pins`/`checks` and the unread
`enpassantPossible`). -/
def sameFrame (s t : GameState) : Prop :=
  t.board = s.board ∧ t.whiteToMove = s.whiteToMove ∧ t.moveLog = s.moveLog ∧
  t.whiteKingLocation = s.whiteKingLocation ∧ t.blackKingLocation = s.blackKingLocation

instance (s t : GameState) : Decidable (sameFrame s t) := by
  unfold sameFrame; infer_instance

/-- The thirteen cell codes that occur on a chess board (the six kinds of
either color, plus the empty sentinel); any other kind character would make
the `moveFunctions` dictionary lookup raise `KeyError`. -/
def validCells : List Cell :=
  [('-','-'), ('w','p'), ('w','R'), ('w','N'), ('w','B'), ('w','Q'), ('w','K'),
   ('b','p'), ('b','R'), ('b','N'), ('b','B'), ('b','Q'), ('b','K')]

/-- Every cell of the board carries one of the thirteen valid codes. -/
def wellFormedBoard (b : Board) : Prop :=
  ∀ rowL ∈ b, ∀ cell ∈ rowL, cell ∈ validCells

instance (b : Board) : Decidable (wellFormedBoard b) := by
  unfold wellFormedBoard; infer_instance

/-- The data-model invariant of the spec (§3) restricted to the side to
move: every scanned square holding the allied king is the stored allied
king-location.  Under it the write-backs of `getKingMoves` rewrite the field
with its own value; without it they move it to the dispatching square. -/
def kingLocationConsistent (s : GameState) : Prop :=
  ∀ rc ∈ squareList s.board,
    bget s.board rc.1 rc.2 = (if s.whiteToMove then ('w', 'K') else ('b', 'K')) →
    rc = (if s.whiteToMove then s.whiteKingLocation else s.blackKingLocation)

instance (s : GameState) : Decidable (kingLocationConsistent s) := by
  unfold kingLocationConsistent; infer_instance

/-- All four coordinates of a move lie on the board. -/
def coordsInRange (m : Move) : Prop :=
  0 ≤ m.startRow ∧ m.startRow ≤ 7 ∧ 0 ≤ m.startCol ∧ m.startCol ≤ 7 ∧
  0 ≤ m.endRow ∧ m.endRow ≤ 7 ∧ 0 ≤ m.endCol ∧ m.endCol ≤ 7

instance (m : Move) : Decidable (coordsInRange m) := by
  unfold coordsInRange; infer_instance

/-- An all-empty board row. -/
def emptyRow : List Cell :=
  [('-','-'),('-','-'),('-','-'),('-','-'),('-','-'),('-','-'),('-','-'),('-','-')]

/-- White pawn e2–e3 from the initial position. -/
def c1m1 : Move := mkMove (6, 4) (5, 4) initialGameState.board false false

/-- State after 1. e3. -/
def c1s1 : GameState := (makeMove initialGameState c1m1 'Q').getD initialGameState

/-- Black pawn a7–a6. -/
def c1m2 : Move := mkMove (1, 0) (2, 0) c1s1.board false false

/-- State after 1. e3 a6. -/
def c1s2 : GameState := (makeMove c1s1 c1m2 'Q').getD initialGameState

/-- White king e1–e2 (legal: e2 was vacated and is not attacked). -/
def c1m3 : Move := mkMove (7, 4) (6, 4) c1s2.board false false

/-- State after 1. e3 a6 2. Ke2. -/
def c1s3 : GameState := (makeMove c1s2 c1m3 'Q').getD initialGameState

/-- White pawn e2–e4 from the initial position (sets the en passant target). -/
def c1n1 : Move := mkMove (6, 4) (4, 4) initialGameState.board false false

/-- State after 1. e4. -/
def c1t1 : GameState := (makeMove initialGameState c1n1 'Q').getD initialGameState

/-- Black knight b8–a6. -/
def c1n2 : Move := mkMove (0, 1) (2, 0) c1t1.board false false

/-- State after 1. e4 Na6. -/
def c1t2 : GameState := (makeMove c1t1 c1n2 'Q').getD initialGameState

/-- Board for the rook claim: a lone unpinned white rook on e4 (square
`(4,4)`), kings tucked in corners off its lines. -/
def c2Board : Board :=
  [[('-','-'),('-','-'),('-','-'),('-','-'),('-','-'),('-','-'),('-','-'),('b','K')],
   emptyRow, emptyRow, emptyRow,
   [('-','-'),('-','-'),('-','-'),('-','-'),('w','R'),('-','-'),('-','-'),('-','-')],
   emptyRow, emptyRow,
   [('w','K'),('-','-'),('-','-'),('-','-'),('-','-'),('-','-'),('-','-'),('-','-')]]

/-- Position for the rook claim, white to move, no pins recorded. -/
def c2State : GameState :=
  { board := c2Board, whiteToMove := true, moveLog := [], inCheck := false,
    pins := [], checks := [], blackKingLocation := (0, 7), whiteKingLocation := (7, 0),
    enpassantPossible := none }

/-- 1. a3 (white pawn a2–a3). -/
def c3m1 : Move := mkMove (6, 0) (5, 0) initialGameState.board false false

def c3s1 : GameState := (makeMove initialGameState c3m1 'Q').getD initialGameState

/-- 1. ... d5 (black pawn d7–d5). -/
def c3m2 : Move := mkMove (1, 3) (3, 3) c3s1.board false false

def c3s2 : GameState := (makeMove c3s1 c3m2 'Q').getD initialGameState

/-- 2. a4. -/
def c3m3 : Move := mkMove (5, 0) (4, 0) c3s2.board false false

def c3s3 : GameState := (makeMove c3s2 c3m3 'Q').getD initialGameState

/-- 2. ... d4. -/
def c3m4 : Move := mkMove (3, 3) (4, 3) c3s3.board false false

def c3s4 : GameState := (makeMove c3s3 c3m4 'Q').getD initialGameState

/-- 3. e4: a two-square advance landing beside the black d4 pawn, setting
the en passant target to e3 = `(5,4)`. -/
def c3m5 : Move := mkMove (6, 4) (4, 4) c3s4.board false false

/-- Position after 1. a3 d5 2. a4 d4 3. e4, black to move: black's d4 pawn
should be able to capture en passant onto `(5,4)`. -/
def c3s5 : GameState := (makeMove c3s4 c3m5 'Q').getD initialGameState

/-- Board for the promotion claim: a white pawn on a7 (square `(1,0)`) one
step from promotion. -/
def c4Board : Board :=
  [[('-','-'),('-','-'),('-','-'),('-','-'),('-','-'),('-','-'),('-','-'),('b','K')],
   [('w','p'),('-','-'),('-','-'),('-','-'),('-','-'),('-','-'),('-','-'),('-','-')],
   emptyRow, emptyRow, emptyRow, emptyRow, emptyRow,
   [('w','K'),('-','-'),('-','-'),('-','-'),('-','-'),('-','-'),('-','-'),('-','-')]]

/-- Position for the promotion claim, white to move. -/
def c4State : GameState :=
  { board := c4Board, whiteToMove := true, moveLog := [], inCheck := false,
    pins := [], checks := [], blackKingLocation := (0, 7), whiteKingLocation := (7, 0),
    enpassantPossible := none }

/-- The promotion push a7–a8, flagged as promotion exactly as the pawn
generator flags it. -/
def c4Move : Move := mkMove (1, 0) (0, 0) c4State.board false true

/-- Board for the double-check claim: the black king on e8 is checked
simultaneously by the rook on e4 and the knight on d6. -/
def c6Board : Board :=
  [[('-','-'),('-','-'),('-','-'),('-','-'),('b','K'),('-','-'),('-','-'),('-','-')],
   emptyRow,
   [('-','-'),('-','-'),('-','-'),('w','N'),('-','-'),('-','-'),('-','-'),('-','-')],
   emptyRow,
   [('-','-'),('-','-'),('-','-'),('-','-'),('w','R'),('-','-'),('-','-'),('-','-')],
   emptyRow, emptyRow,
   [('w','K'),('-','-'),('-','-'),('-','-'),('-','-'),('-','-'),('-','-'),('-','-')]]

/-- Double-check position, black to move. -/
def c6State : GameState :=
  { board := c6Board, whiteToMove := false, moveLog := [], inCheck := false,
    pins := [], checks := [], blackKingLocation := (0, 4), whiteKingLocation := (7, 0),
    enpassantPossible := none }

/-- Board for the pinned-pawn claim: the black pawn on e6 (square `(2,4)`)
is pinned vertically by the white rook on e2, with the black king on e8 in
front of (above) the pawn. -/
def c7Board : Board :=
  [[('-','-'),('-','-'),('-','-'),('-','-'),('b','K'),('-','-'),('-','-'),('-','-')],
   emptyRow,
   [('-','-'),('-','-'),('-','-'),('-','-'),('b','p'),('-','-'),('-','-'),('-','-')],
   emptyRow, emptyRow, emptyRow,
   [('-','-'),('-','-'),('-','-'),('-','-'),('w','R'),('-','-'),('-','-'),('-','-')],
   [('w','K'),('-','-'),('-','-'),('-','-'),('-','-'),('-','-'),('-','-'),('-','-')]]

/-- Vertical-pin position, black to move. -/
def c7State : GameState :=
  { board := c7Board, whiteToMove := false, moveLog := [], inCheck := false,
    pins := [], checks := [], blackKingLocation := (0, 4), whiteKingLocation := (7, 0),
    enpassantPossible := none }

/-- A move equal to `c9a` on squares but differing in every other field. -/
def c9a : Move :=
  { startRow := 6, startCol := 4, endRow := 4, endCol := 4,
    pieceMoved := ('w','p'), pieceCaptured := ('-','-'),
    isPawnPromotion := false, isEnpassantMove := false }

def c9b : Move :=
  { startRow := 6, startCol := 4, endRow := 4, endCol := 4,
    pieceMoved := ('b','Q'), pieceCaptured := ('w','R'),
    isPawnPromotion := true, isEnpassantMove := true }

/-! Supporting lemmas. -/

/-- `kingMoveStep` never touches the board. -/
lemma kingMoveStep_board (a : Char) (r c : Int)
    (acc : GameState × List Move) (off : Int × Int) :
    (kingMoveStep a r c acc off).1.board = acc.1.board := by
  unfold kingMoveStep
  dsimp only
  repeat' split
  all_goals rfl

/-- Every move `kingMoveStep` adds starts at the supplied square and moves
the piece found there. -/
lemma kingMoveStep_mem (a : Char) (r c : Int)
    (acc : GameState × List Move) (off : Int × Int) (m : Move)
    (hm : m ∈ (kingMoveStep a r c acc off).2) :
    m ∈ acc.2 ∨
      (m.startRow = r ∧ m.startCol = c ∧ m.pieceMoved = bget acc.1.board r c) := by
  unfold kingMoveStep at hm
  dsimp only at hm
  repeat' split at hm
  all_goals first
    | exact Or.inl hm
    | (rw [List.mem_append, List.mem_singleton] at hm
       rcases hm with h | h
       · exact Or.inl h
       · subst h
         right
         refine ⟨?_, ?_, ?_⟩ <;> simp [mkMove])

/-- Moves accumulated across the king-offset fold start at the supplied
square and move the piece found there. -/
lemma kingFold_mem (offs : List (Int × Int)) (a : Char) (r c : Int) :
    ∀ (acc : GameState × List Move) (m : Move),
      m ∈ (offs.foldl (kingMoveStep a r c) acc).2 →
      m ∈ acc.2 ∨
        (m.startRow = r ∧ m.startCol = c ∧ m.pieceMoved = bget acc.1.board r c) := by
  induction offs with
  | nil => intro acc m hm; exact Or.inl hm
  | cons x t ih =>
    intro acc m hm
    rcases ih (kingMoveStep a r c acc x) m hm with h | h
    · exact kingMoveStep_mem a r c acc x m h
    · right
      rwa [kingMoveStep_board] at h

lemma sameFrame_self (s : GameState) : sameFrame s s := ⟨rfl, rfl, rfl, rfl, rfl⟩

lemma sameFrame_trans {s t u : GameState} (h1 : sameFrame s t) (h2 : sameFrame t u) :
    sameFrame s u := by
  obtain ⟨a1, b1, c1, d1, e1⟩ := h1
  obtain ⟨a2, b2, c2, d2, e2⟩ := h2
  exact ⟨a2.trans a1, b2.trans b1, c2.trans c1, d2.trans d1, e2.trans e1⟩

/-- Field accounting for one `kingMoveStep`: board, turn and log are
untouched; the allied king-location field is either untouched or written
with the argument square `(r, c)` by the restore lines 226–229. -/
lemma kingMoveStep_fields (a : Char) (r c : Int)
    (acc : GameState × List Move) (off : Int × Int) :
    (kingMoveStep a r c acc off).1.board = acc.1.board ∧
    (kingMoveStep a r c acc off).1.whiteToMove = acc.1.whiteToMove ∧
    (kingMoveStep a r c acc off).1.moveLog = acc.1.moveLog ∧
    ((kingMoveStep a r c acc off).1.whiteKingLocation = acc.1.whiteKingLocation ∨
      (a = 'w' ∧ (kingMoveStep a r c acc off).1.whiteKingLocation = (r, c))) ∧
    ((kingMoveStep a r c acc off).1.blackKingLocation = acc.1.blackKingLocation ∨
      (a ≠ 'w' ∧ (kingMoveStep a r c acc off).1.blackKingLocation = (r, c))) := by
  unfold kingMoveStep
  dsimp only
  repeat' split
  all_goals simp_all

/-- When `(r, c)` is the stored allied king-location, `kingMoveStep`
preserves the frame: its write-backs rewrite the field with its own
value. -/
lemma kingMoveStep_frame (s0 : GameState) (a : Char) (r c : Int)
    (acc : GameState × List Move) (off : Int × Int)
    (hacc : sameFrame s0 acc.1)
    (hAlly : a = (if s0.whiteToMove then 'w' else 'b'))
    (hrc : ((r, c) : Int × Int)
             = (if s0.whiteToMove then s0.whiteKingLocation else s0.blackKingLocation)) :
    sameFrame s0 (kingMoveStep a r c acc off).1 := by
  obtain ⟨hb, hw, hl, hwk, hbk⟩ := hacc
  obtain ⟨fb, fw, fl, fwk, fbk⟩ := kingMoveStep_fields a r c acc off
  refine ⟨fb.trans hb, fw.trans hw, fl.trans hl, ?_, ?_⟩
  · rcases fwk with h | ⟨ha, h⟩
    · exact h.trans hwk
    · have hwm : s0.whiteToMove = true := by
        rcases Bool.eq_false_or_eq_true s0.whiteToMove with ht | hf
        · exact ht
        · rw [hAlly, hf] at ha
          exact absurd ha (by decide)
      rw [h, hrc, hwm]
      simp
  · rcases fbk with h | ⟨ha, h⟩
    · exact h.trans hbk
    · have hwm : s0.whiteToMove = false := by
        rcases Bool.eq_false_or_eq_true s0.whiteToMove with ht | hf
        · rw [hAlly, ht] at ha
          simp at ha
        · exact hf
      rw [h, hrc, hwm]
      simp

lemma kingFold_frame (offs : List (Int × Int)) (s0 : GameState) (a : Char) (r c : Int)
    (hAlly : a = (if s0.whiteToMove then 'w' else 'b'))
    (hrc : ((r, c) : Int × Int)
             = (if s0.whiteToMove then s0.whiteKingLocation else s0.blackKingLocation)) :
    ∀ acc : GameState × List Move, sameFrame s0 acc.1 →
      sameFrame s0 ((offs.foldl (kingMoveStep a r c) acc).1) := by
  induction offs with
  | nil => intro acc h; exact h
  | cons x t ih =>
    intro acc h
    exact ih _ (kingMoveStep_frame s0 a r c acc x h hAlly hrc)

/-- `getKingMoves` preserves the frame when called with the stored allied
king-location as its square arguments (then the restore write-back is the
identity in value). -/
lemma getKingMoves_frame (s0 st : GameState) (r c : Int) (ms : List Move)
    (hst : sameFrame s0 st)
    (hrc : ((r, c) : Int × Int)
             = (if s0.whiteToMove then s0.whiteKingLocation else s0.blackKingLocation)) :
    sameFrame s0 (getKingMoves st r c ms).1 := by
  unfold getKingMoves
  dsimp only
  apply kingFold_frame kingOffsets s0 _ r c ?_ hrc (st, ms) hst
  rw [hst.2.1]

/-- Each dispatch step of `getAllPossibleMoves` preserves the frame when the
stored allied king-location is consistent with the board: the non-king
generators only rewrite `pins`, and the king dispatch fires only on squares
holding the allied king — under consistency, only on the stored king square,
so its write-backs are value-preserving. -/
lemma possibleMovesStep_frame (s0 : GameState) (H : kingLocationConsistent s0)
    (acc : GameState × List Move) (rc : Int × Int)
    (hmem : rc ∈ squareList s0.board) (hacc : sameFrame s0 acc.1) :
    sameFrame s0 (possibleMovesStep acc rc).1 := by
  unfold possibleMovesStep
  dsimp only
  split
  case isFalse => exact hacc
  case isTrue h1 =>
    split
    case h_3 heq =>
      have hcell : bget s0.board rc.1 rc.2
          = (if s0.whiteToMove then (('w', 'K') : Cell) else ('b', 'K')) := by
        rw [← hacc.1]
        rcases h1 with ⟨hc1, hwm⟩ | ⟨hc1, hwm⟩
        · have hwm0 : s0.whiteToMove = true := by rw [← hacc.2.1]; exact hwm
          rw [hwm0, if_pos rfl, ← hc1, ← heq]
        · have hwm0 : s0.whiteToMove = false := by
            rw [← hacc.2.1]
            exact Bool.not_eq_true _ |>.mp hwm
          rw [hwm0, ← hc1, ← heq]
          simp
      have hrc := H rc hmem hcell
      apply getKingMoves_frame s0 acc.1 rc.1 rc.2 acc.2 hacc
      rw [← hrc]
    all_goals exact hacc

lemma foldl_possibleMovesStep_frame (s0 : GameState) (H : kingLocationConsistent s0) :
    ∀ l : List (Int × Int), (∀ rc ∈ l, rc ∈ squareList s0.board) →
      ∀ acc : GameState × List Move, sameFrame s0 acc.1 →
        sameFrame s0 ((l.foldl possibleMovesStep acc).1) := by
  intro l
  induction l with
  | nil => intro _ acc h; exact h
  | cons x t ih =>
    intro hsub acc h
    exact ih (fun rc hrc => hsub rc (List.mem_cons_of_mem x hrc)) _
      (possibleMovesStep_frame s0 H acc x (hsub x (List.mem_cons_self x t)) h)

/-! The claims. -/

/-- C1: the claim that `undoMove` after `makeMove` restores the exact prior
state fails on the code.  In the reachable line 1. e3 a6 2. Ke2, undoing the
king move restores the board, turn flag and log, but `undoMove` writes the
move's END square into the king-location field (source lines 61–64), leaving
`whiteKingLocation` at `(6,4)` where the prior state had `(7,4)`.  The final
two conjuncts show a second failure: after 1. e4 Na6, undoing the knight
move leaves `enpassantPossible` cleared although it was `(5,4)` before the
knight move (`undoMove` only touches that field for en passant moves and
two-square pawn advances). -/
theorem undo_after_king_move_leaves_stale_king_location :
    (makeMove initialGameState c1m1 'Q').isSome = true ∧
    (makeMove c1s1 c1m2 'Q').isSome = true ∧
    (makeMove c1s2 c1m3 'Q').isSome = true ∧
    c1m3.pieceMoved = ('w', 'K') ∧
    c1s2.whiteKingLocation = (7, 4) ∧
    (undoMove c1s3).board = c1s2.board ∧
    (undoMove c1s3).whiteToMove = c1s2.whiteToMove ∧
    (undoMove c1s3).moveLog = c1s2.moveLog ∧
    (undoMove c1s3).whiteKingLocation = (6, 4) ∧
    (makeMove initialGameState c1n1 'Q').isSome = true ∧
    (makeMove c1t1 c1n2 'Q').isSome = true ∧
    c1t1.enpassantPossible = some (5, 4) ∧
    (undoMove c1t2).enpassantPossible = none := by decide

/-- C2: the claim that the rook generator reaches every on-board square of
each ray fails on the code.  For the lone unpinned rook on `(4,4)` of
`c2State` the generated destinations stop one short of row 0 and column 0:
the bounds test of line 193 reads `0 < endRow < 8 and 0 < endCol < 8`,
excluding the board edge squares `(0,4)` and `(4,0)` even though both are
empty and on the board (the line's own comment says "check if spot is on
the board"). -/
theorem rook_generator_omits_row0_and_col0 :
    ((getRookMoves c2State 4 4 []).2.map (fun m => (m.endRow, m.endCol))) =
      [(3,4), (2,4), (1,4), (5,4), (6,4), (7,4), (4,3), (4,2), (4,1), (4,5), (4,6), (4,7)] ∧
    bget c2State.board 0 4 = ('-', '-') ∧
    bget c2State.board 4 0 = ('-', '-') ∧
    c2State.pins = [] := by decide

set_option maxRecDepth 10000 in
/-- C3: the claim that a pawn adjacent to a freshly advanced enemy pawn has
a generated capture onto the en passant target fails on the code.  After
1. a3 d5 2. a4 d4 3. e4 the target is `(5,4)` and the black pawn on `(4,3)`
stands beside the advanced white pawn on `(4,4)`, yet no generated legal
move for black ends on `(5,4)`: `getPawnMoves` never consults
`enpassantPossible`, so the en passant capture handled by `makeMove` and
`undoMove` is never produced. -/
theorem no_enpassant_capture_generated :
    (makeMove initialGameState c3m1 'Q').isSome = true ∧
    (makeMove c3s1 c3m2 'Q').isSome = true ∧
    (makeMove c3s2 c3m3 'Q').isSome = true ∧
    (makeMove c3s3 c3m4 'Q').isSome = true ∧
    (makeMove c3s4 c3m5 'Q').isSome = true ∧
    c3s5.enpassantPossible = some (5, 4) ∧
    bget c3s5.board 4 3 = ('b', 'p') ∧
    bget c3s5.board 4 4 = ('w', 'p') ∧
    c3s5.whiteToMove = false ∧
    ((getValidMoves c3s5).1.all
      (fun m => !(m.endRow == 5 && m.endCol == 4))) = true := by decide

set_option maxRecDepth 10000 in
/-- C4: the claim that applying a promotion-flagged move yields the selected
piece on the destination fails on the code.  The pawn generator does flag
the push a7–a8 as a promotion, but `makeMove` then evaluates
`self.pieceMoved[0]` (line 43) — an attribute the `GameState` does not have
(the move does) — so every promotion application raises `AttributeError`
instead of placing the chosen piece, whichever of the four kinds is chosen
at the prompt. -/
theorem promotion_application_raises :
    ((getValidMoves c4State).1.filter (fun m => m.startRow == 1 && m.startCol == 0)).map
        (fun m => (m.endRow, m.endCol, m.isPawnPromotion)) = [(0, 0, true)] ∧
    c4Move.isPawnPromotion = true ∧
    makeMove c4State c4Move 'Q' = none ∧
    makeMove c4State c4Move 'R' = none ∧
    makeMove c4State c4Move 'B' = none ∧
    makeMove c4State c4Move 'N' = none := by decide

set_option maxRecDepth 10000 in
/-- C5: in the standard initial position with white to move, the legal-move
generator returns exactly 20 moves. -/
theorem initial_position_move_count :
    (getValidMoves initialGameState).1.length = 20 := by decide

/-- C6: whenever the pin/check sweep records a double check (two check
entries) for a position whose king-location field points at the allied king,
every move returned by `getValidMoves` moves that king: the double-check
branch builds the list exclusively through `getKingMoves` from the king
square. -/
theorem double_check_only_king_moves (s : GameState)
    (hchk : (checkForPinsAndChecks s).1 = true)
    (h2 : (checkForPinsAndChecks s).2.2.length = 2)
    (hk : bget s.board (if s.whiteToMove then s.whiteKingLocation.1 else s.blackKingLocation.1)
            (if s.whiteToMove then s.whiteKingLocation.2 else s.blackKingLocation.2)
          = (if s.whiteToMove then ('w', 'K') else ('b', 'K'))) :
    ∀ m ∈ (getValidMoves s).1,
      m.pieceMoved = (if s.whiteToMove then (('w', 'K') : Cell) else ('b', 'K')) := by
  intro m hm
  simp only [getValidMoves, hchk, h2] at hm
  unfold getKingMoves at hm
  dsimp only at hm
  rcases kingFold_mem kingOffsets _ _ _ _ m hm with h | h
  · cases h
  · rw [← hk]
    exact h.2.2

set_option maxRecDepth 10000 in
/-- Witness for C6: the concrete double check of `c6State` (rook e4 and
knight d6 against the black king on e8) satisfies all three hypotheses, and
the conclusion follows by the theorem. -/
theorem double_check_only_king_moves_witness :
    (checkForPinsAndChecks c6State).1 = true ∧
    (checkForPinsAndChecks c6State).2.2.length = 2 ∧
    bget c6State.board
        (if c6State.whiteToMove then c6State.whiteKingLocation.1 else c6State.blackKingLocation.1)
        (if c6State.whiteToMove then c6State.whiteKingLocation.2 else c6State.blackKingLocation.2)
      = (if c6State.whiteToMove then ('w', 'K') else ('b', 'K')) ∧
    (∀ m ∈ (getValidMoves c6State).1,
      m.pieceMoved = (if c6State.whiteToMove then (('w', 'K') : Cell) else ('b', 'K'))) :=
  ⟨by decide, by decide, by decide,
   double_check_only_king_moves c6State (by decide) (by decide) (by decide)⟩

set_option maxRecDepth 10000 in
/-- C7: the claim that a vertically pinned pawn keeps its forward pushes
regardless of which side its king is on fails on the code.  In `c7State` the
black pawn on `(2,4)` is recorded pinned with direction `(1,0)` (king above,
rook below); the push square `(3,4)` is empty and lies on the pin axis, yet
the pawn generates no move at all: the push guard of `getPawnMoves` accepts
only the literal direction `(-1,0)` (lines 154), not both orientations of
the vertical axis, so black pawns pinned from below (and white pawns whose
king stands in front) lose their pushes. -/
theorem pinned_pawn_vertical_push_suppressed :
    (checkForPinsAndChecks c7State).2.1 = [(2, 4, 1, 0)] ∧
    bget c7State.board 2 4 = ('b', 'p') ∧
    bget c7State.board 3 4 = ('-', '-') ∧
    ((getValidMoves c7State).1.all
      (fun m => !(m.startRow == 2 && m.startCol == 4))) = true := by decide

/-- C8: `undoMove` on an empty move log is a no-op: the guard
`if len(self.moveLog) != 0` skips the whole body, so the state — board,
turn flag, king locations, en passant target and log — is returned
unchanged. -/
theorem undo_empty_log_noop (s : GameState) (h : s.moveLog = []) :
    undoMove s = s := by
  unfold undoMove
  rw [h]
  rfl

/-- Witness for C8 at the initial state. -/
theorem undo_empty_log_noop_witness :
    initialGameState.moveLog = [] ∧ undoMove initialGameState = initialGameState :=
  ⟨rfl, undo_empty_log_noop initialGameState rfl⟩

/-- C9: for moves whose coordinates lie in `[0,7]`, the derived id
`1000*startRow + 100*startCol + 10*endRow + endCol` encodes the coordinate
quadruple bijectively, so `Move.__eq__` returns true exactly when the two
moves share start and end squares — independent of `pieceMoved`,
`pieceCaptured` and the two flags, which the id does not mention. -/
theorem move_equality_iff_same_squares (m1 m2 : Move)
    (h1 : coordsInRange m1) (h2 : coordsInRange m2) :
    moveEq m1 m2 = true ↔
      (m1.startRow = m2.startRow ∧ m1.startCol = m2.startCol ∧
       m1.endRow = m2.endRow ∧ m1.endCol = m2.endCol) := by
  obtain ⟨a1, b1, c1, d1, e1, f1, g1, i1⟩ := h1
  obtain ⟨a2, b2, c2, d2, e2, f2, g2, i2⟩ := h2
  simp only [moveEq, moveID, beq_iff_eq]
  omega

/-- Witness for C9: two moves agreeing on squares but differing in piece
fields and flags compare equal. -/
theorem move_equality_iff_same_squares_witness :
    coordsInRange c9a ∧ coordsInRange c9b ∧
    (moveEq c9a c9b = true ↔
      (c9a.startRow = c9b.startRow ∧ c9a.startCol = c9b.startCol ∧
       c9a.endRow = c9b.endRow ∧ c9a.endCol = c9b.endCol)) :=
  ⟨by decide, by decide, move_equality_iff_same_squares c9a c9b (by decide) (by decide)⟩

/-- C10: `getValidMoves` (including the hypothetical king-move simulation
inside `getKingMoves`) leaves the board, the turn flag, the move log and
both king-location fields exactly as they were; only the transient
`inCheck`/`pins`/`checks` fields are rewritten.  Two hypotheses scope the
statement to positions of the data model.  `kingLocationConsistent` is the
spec's §3 invariant (the stored king-location equals the king's board
square); it is needed because the king-loop write-backs (lines 226–229)
store the dispatching square `(row, col)` into the field — the identity on
consistent positions, but a genuine mutation when the field was stale.
`wellFormedBoard` marks the embedding's scope: on a board cell outside the
six piece kinds the Python dictionary dispatch would raise rather than
return. -/
theorem legal_move_query_preserves_frame (s : GameState)
    (_hwf : wellFormedBoard s.board) (H : kingLocationConsistent s) :
    sameFrame s (getValidMoves s).2 := by
  have h0 : sameFrame s ({ s with inCheck := (checkForPinsAndChecks s).1, pins := (checkForPinsAndChecks s).2.1, checks := (checkForPinsAndChecks s).2.2 }) := ⟨rfl, rfl, rfl, rfl, rfl⟩
  unfold getValidMoves
  dsimp only
  split
  · split
    · exact foldl_possibleMovesStep_frame s H _ (fun rc h => h) _ h0
    · apply getKingMoves_frame s _ _ _ _ h0
      rcases Bool.eq_false_or_eq_true s.whiteToMove with ht | hf
      · rw [ht]; simp
      · rw [hf]; simp
  · exact foldl_possibleMovesStep_frame s H _ (fun rc h => h) _ h0

set_option maxRecDepth 10000 in
/-- Witness for C10 at the initial state. -/
theorem legal_move_query_preserves_frame_witness :
    wellFormedBoard initialGameState.board ∧
    kingLocationConsistent initialGameState ∧
    sameFrame initialGameState (getValidMoves initialGameState).2 :=
  ⟨by decide, by decide,
   legal_move_query_preserves_frame initialGameState (by decide) (by decide)⟩
